import Mathlib

/-!
Verification development for the ReadmeForge signal-extraction core.
The Python source under scrutiny lives in
`src/infrastructure/analyzers/technology_analyzer.py`,
`src/infrastructure/analyzers/project_analyzer.py`,
`src/infrastructure/analyzers/structure_analyzer.py` and
`src/domain/entities/project.py`.  Each definition below is a shallow
embedding of one Python function, written over `List Char` / `String`
and executable so that concrete runs can be checked by `decide`/`rfl`.
-/

namespace ReadmeForge

/-! ### String primitives mirroring the Python built-ins used by the analyzers -/

/-- Model of Python `str.strip()`: drop whitespace from both ends. -/
def stripChars (s : List Char) : List Char :=
  ((s.dropWhile Char.isWhitespace).reverse.dropWhile Char.isWhitespace).reverse

/-- Model of Python `str.strip()` on `String`. -/
def pyStrip (s : String) : String :=
  String.mk (stripChars s.data)

/-- Model of Python `str.startswith(p)`. -/
def pyStartsWith (p s : String) : Bool :=
  p.data.isPrefixOf s.data

/-- Model of Python `str.lower()` (ASCII view, which covers all inputs used here). -/
def pyLower (s : String) : String :=
  String.mk (s.data.map Char.toLower)

/-- Model of Python `needle in hay` (substring containment). -/
def containsSubStr (needle hay : String) : Bool :=
  (List.range (hay.data.length + 1)).any (fun i => needle.data.isPrefixOf (hay.data.drop i))

/-- Number of (possibly overlapping) positions at which `needle` occurs in `hay`;
this is the "each occurrence counted individually" reading of the specification. -/
def substrOccurrences (needle hay : String) : Nat :=
  ((List.range (hay.data.length + 1)).filter
    (fun i => needle.data.isPrefixOf (hay.data.drop i))).length

/-- First index at which `needle` occurs in `hay`, if any. -/
def findSubstrIdx (needle hay : List Char) : Option Nat :=
  (List.range (hay.length + 1)).find? (fun i => needle.isPrefixOf (hay.drop i))

/-- Model of Python `s.split(needle, 1)` restricted to the case where the
separator occurs: split `s` at the first occurrence of `needle`. -/
def splitFirstOn (needle s : String) : Option (String × String) :=
  match findSubstrIdx needle.data s.data with
  | some i => some (String.mk (s.data.take i), String.mk (s.data.drop (i + needle.data.length)))
  | none => none

/-- Model of Python `str.split(c)` for a single separator character:
split at every occurrence, keeping empty pieces. -/
def splitOnChar (c : Char) : List Char → List (List Char)
  | [] => [[]]
  | a :: rest =>
    let r := splitOnChar c rest
    if a = c then [] :: r
    else
      match r with
      | [] => [[a]]
      | h :: t => (a :: h) :: t

/-- Split a string into its lines, as Python `content.split(chr(10))` does. -/
def pySplitLines (s : String) : List String :=
  (splitOnChar (Char.ofNat 10) s.data).map String.mk

/-! ### Technology registry (`technology_analyzer.py`)

`TechEntry` is one element of a category list in the analyzer's `result`
dictionary; `TechDict` is the dictionary itself, modelled as an ordered
association list exactly as a Python `dict` behaves (update in place,
new keys appended at the end). -/

structure TechEntry where
  name : String
  importance : Nat
deriving DecidableEq, Repr

abbrev TechDict := List (String × List TechEntry)

/-- Model of Python `d[k]` lookup returning `none` when the key is absent. -/
def dictFind (d : TechDict) (k : String) : Option (List TechEntry) :=
  (d.find? (fun p => p.1 == k)).map (·.2)

/-- Model of Python `d[k] = v`: update the existing binding in place, or
append a new binding at the end. -/
def dictSet : TechDict → String → List TechEntry → TechDict
  | [], k, v => [(k, v)]
  | (k', v') :: rest, k, v =>
    if k' == k then (k', v) :: rest else (k', v') :: dictSet rest k v

/-- Model of Python `k in d`. -/
def hasKey (d : TechDict) (k : String) : Bool :=
  (dictFind d k).isSome

/-- Body of `TechnologyAnalyzer._add_technology_if_not_exists` acting on one
category list: scan for an entry with the given name; on the first hit raise
its importance to the maximum of old and new and stop; otherwise append. -/
def upsertEntry : List TechEntry → String → Nat → List TechEntry
  | [], name, imp => [⟨name, imp⟩]
  | t :: ts, name, imp =>
    if t.name == name then
      (if t.importance < imp then { t with importance := imp } else t) :: ts
    else
      t :: upsertEntry ts name imp

/-- Model of `TechnologyAnalyzer._add_technology_if_not_exists` (lines 926-948):
ensure the category key exists, then upsert the entry into its list. -/
def addTechnologyIfNotExists (d : TechDict) (category name : String) (importance : Nat) :
    TechDict :=
  dictSet d category (upsertEntry ((dictFind d category).getD []) name importance)

/-- Initial `result` dictionary of `detect_technologies`
(technology_analyzer.py lines 39-49): all nine categories, in source order. -/
def initTechDict : TechDict :=
  [("language", []), ("framework", []), ("database", []), ("frontend", []),
   ("backend", []), ("devops", []), ("testing", []), ("architecture", []), ("other", [])]

/-- Category list of `ProjectAnalyzer.analyze` (project_analyzer.py line 55),
in source order. -/
def requiredCategories : List String :=
  ["language", "framework", "frontend", "backend", "database", "devops",
   "testing", "architecture", "other"]

/-- Category fill-in loop of `ProjectAnalyzer.analyze` (lines 56-58):
add an empty list for every required category that is missing. -/
def fillRequiredCategories (d : TechDict) : TechDict :=
  requiredCategories.foldl (fun d c => if hasKey d c then d else d ++ [(c, [])]) d

/-- One detector fact: a `(category, name, importance)` triple routed through
`_add_technology_if_not_exists`.  The detection phases of
`detect_technologies` only mutate `result` through such calls. -/
def applyUpserts (d : TechDict) (evs : List (String × String × Nat)) : TechDict :=
  evs.foldl (fun d e => addTechnologyIfNotExists d e.1 e.2.1 e.2.2) d

/-- Insertion step of `ProjectAnalyzer._enrich_technologies_from_source`
(project_analyzer.py lines 906-924): append a found library at importance 3
unless an entry with the same (case-insensitively compared) name already sits
in the mapped category; create the category key if it is missing. -/
def enrichAdd (d : TechDict) (category lib : String) : TechDict :=
  let entries := (dictFind d category).getD []
  if entries.any (fun t => pyLower t.name == pyLower lib) then d
  else dictSet d category (entries ++ [⟨lib, 3⟩])

/-- Enrichment loop over all found libraries. -/
def applyEnrichments (d : TechDict) (evs : List (String × String)) : TechDict :=
  evs.foldl (fun d e => enrichAdd d e.1 e.2) d

/-- Technology mapping produced by the analysis pipeline for an arbitrary
project: the initial nine-key dictionary, followed by any sequence of
detector upserts, any sequence of source enrichments, and the aggregator's
category fill-in — exactly the stages `analyze` runs before
`_convert_technologies_data`. -/
def pipelineTechDict (upserts : List (String × String × Nat))
    (enrichments : List (String × String)) : TechDict :=
  fillRequiredCategories (applyEnrichments (applyUpserts initTechDict upserts) enrichments)

/-! ### Requirements parsing (`TechnologyAnalyzer._parse_requirements_txt`, lines 376-419) -/

structure ReqPackage where
  name : String
  version : String
deriving DecidableEq, Repr

/-- Per-line body of `_parse_requirements_txt`: strip the line; skip blank and
comment lines; otherwise split on the first of the version operators, checked
in source order, and strip the pieces (the version is stripped only when it is
non-empty, as in the Python conditional expression). -/
def parseRequirementLine (raw : String) : Option ReqPackage :=
  let line := pyStrip raw
  if line == "" || pyStartsWith "#" line then none
  else
    let pack := fun (name version : String) =>
      some ⟨pyStrip name, if version == "" then version else pyStrip version⟩
    match splitFirstOn "==" line with
    | some (n, v) => pack n v
    | none =>
      match splitFirstOn ">=" line with
      | some (n, v) => pack n v
      | none =>
        match splitFirstOn "<=" line with
        | some (n, v) => pack n v
        | none =>
          match splitFirstOn "~=" line with
          | some (n, v) => pack n v
          | none => pack line ""

/-! ### README description provider
(`ProjectAnalyzer._detect_project_description`, lines 157-167) -/

/-- Truncation applied to a found description line:
`description[:200]` plus an ellipsis when the line exceeds 200 characters. -/
def truncateDescription (d : String) : String :=
  String.mk (d.data.take 200) ++ (if d.data.length > 200 then "..." else "")

/-- Line filter used by the README provider: the stripped line is non-empty,
the raw line does not start with a heading marker `#`, and — as written in the
source — the line index is strictly positive. -/
def readmeLineLoop : List String → Nat → Option String
  | [], _ => none
  | l :: ls, i =>
    if (pyStrip l != "") && !(pyStartsWith "#" l) && decide (0 < i) then
      some (truncateDescription (pyStrip l))
    else
      readmeLineLoop ls (i + 1)

/-- README provider of `_detect_project_description`: split the README content
into lines and run the indexed loop from index 0. -/
def readmeDescription (content : String) : Option String :=
  readmeLineLoop (pySplitLines content) 0

/-- Description provider as the specification words it: the first non-heading,
non-empty line of the README, regardless of its index.  Kept separate from
`readmeDescription` so the two can be compared. -/
def readmeDescriptionSpec (content : String) : Option String :=
  ((pySplitLines content).find? (fun l => (pyStrip l != "") && !(pyStartsWith "#" l))).map
    (fun l => truncateDescription (pyStrip l))

/-! ### Feature inference (`ProjectAnalyzer._detect_project_features`, lines 477-688) -/

structure Feature where
  name : String
  description : String
  category : String
  priority : Nat
deriving DecidableEq, Repr

/-- Web indicator keywords (project_analyzer.py lines 491-492). -/
def webIndicators : List String :=
  ["flask", "django", "express", "fastapi", "router", "route", "templates", "views",
   "controllers", "app.get", "app.post", "render", "request", "response"]

/-- Keyword scan of one sampled source file for one category: each indicator
that occurs in the (already lower-cased) content adds 1. -/
def fileCategoryIncrement (indicators : List String) (content : String) : Nat :=
  indicators.foldl (fun acc ind => if containsSubStr ind content then acc + 1 else acc) 0

/-- Keyword scan as the claim words it: each *occurrence* of each indicator
adds 1, occurrences within one file counted individually.  Kept separate from
`fileCategoryIncrement` so the two can be compared. -/
def fileCategoryIncrementSpec (indicators : List String) (content : String) : Nat :=
  indicators.foldl (fun acc ind => acc + substrOccurrences ind content) 0

/-- Counter accumulated over the sampled source files: the file list is capped
at 50 (`source_files[:50]`) and each file contributes its per-file increment. -/
def featureCategoryCounter (indicators : List String) (contents : List String) : Nat :=
  (contents.take 50).foldl (fun acc c => acc + fileCategoryIncrement indicators c) 0

/-- Final counter values of `_detect_project_features`, in the insertion order
of the Python `feature_counters` dictionary (lines 530-541). -/
structure FeatureCounters where
  web : Nat
  api : Nat
  cli : Nat
  database : Nat
  ai : Nat
  scraping : Nat
  testing : Nat
  auth : Nat
  file_processing : Nat
  async : Nat
deriving DecidableEq, Repr

/-- All-zero counters. -/
def zeroCounters : FeatureCounters := ⟨0, 0, 0, 0, 0, 0, 0, 0, 0, 0⟩

/-- Qualification threshold (line 647): 8 for web/cli/api, 5 otherwise. -/
def featureThreshold (featureType : String) : Nat :=
  if ["web", "cli", "api"].contains featureType then 8 else 5

/-- Priority formula (line 650): 5 when the counter reaches 15, 4 when it
reaches 10, otherwise 3. -/
def featurePriority (counter : Nat) : Nat :=
  if 15 ≤ counter then 5 else if 10 ≤ counter then 4 else 3

/-- One iteration of the qualification loop (lines 646-656). -/
def emitFeature (featureType name description : String) (counter : Nat) : List Feature :=
  if featureThreshold featureType ≤ counter then
    [⟨name, description, featureType, featurePriority counter⟩]
  else []

/-- Qualification loop over the ten counters, in dictionary order, with the
name/description pairs of `feature_descriptions` (lines 633-644). -/
def detectFeaturesFromCounters (fc : FeatureCounters) : List Feature :=
  emitFeature "web" "Web Application" "Provides a web interface for user interaction" fc.web ++
  emitFeature "api" "API" "Provides a programming interface for interaction with other systems" fc.api ++
  emitFeature "cli" "Command Line Interface" "Allows managing functionality through terminal commands" fc.cli ++
  emitFeature "database" "Database Operations" "Storage and management of data in databases" fc.database ++
  emitFeature "ai" "Machine Learning/AI" "Uses machine learning or artificial intelligence algorithms" fc.ai ++
  emitFeature "scraping" "Web Scraping" "Extraction of data from websites" fc.scraping ++
  emitFeature "testing" "Testing" "Contains automated code tests" fc.testing ++
  emitFeature "auth" "Authentication and Authorization" "User management, access rights, and authentication" fc.auth ++
  emitFeature "file_processing" "File Processing" "Working with files of various formats" fc.file_processing ++
  emitFeature "async" "Asynchronous Processing" "Uses asynchronous programming for parallel operations" fc.async

/-- Model of Python `str.capitalize()` on an already lower-cased word. -/
def pyCapitalize (s : String) : String :=
  match s.data with
  | [] => ""
  | c :: rest => String.mk (c.toUpper :: rest.map Char.toLower)

/-- Words of the project directory name: hyphens and underscores replaced by
spaces, then whitespace-split with empty pieces dropped (Python `str.split()`). -/
def projectNameWords (nameLower : String) : List String :=
  ((splitOnChar ' ' (nameLower.data.map
      (fun c => if c = '-' ∨ c = '_' then ' ' else c))).map String.mk).filter (· != "")

/-- Generic feature synthesized from the project name words (lines 678-686). -/
def genericFeature (words : List String) : Feature :=
  let actionWord := words.headD ""
  let subjectWords := " ".intercalate (words.drop 1)
  ⟨pyCapitalize actionWord ++ " " ++ subjectWords,
   "Application for working with " ++ subjectWords, "general", 3⟩

/-- Tail of `_detect_project_features` (lines 658-688): the two name-derived
special rules, then the generic synthesis when the feature list is still empty
and the name splits into more than one word. -/
def applyNameRules (features : List Feature) (projectNameLower : String) : List Feature :=
  let f1 :=
    if containsSubStr "download" projectNameLower ||
       containsSubStr "downloader" projectNameLower then
      features ++ [⟨"Content Download", "Download files or content from external sources",
                    "download", 5⟩]
    else features
  let f2 :=
    if containsSubStr "youtube" projectNameLower then
      f1 ++ [⟨"YouTube Integration",
              "Working with YouTube API or downloading content from YouTube",
              "integration", 5⟩]
    else f1
  if f2.isEmpty then
    let words := projectNameWords projectNameLower
    if words.length > 1 then [genericFeature words] else []
  else f2

/-- Counter-qualification stage plus name-derived stage of
`_detect_project_features`. -/
def detectProjectFeatures (fc : FeatureCounters) (projectNameLower : String) : List Feature :=
  applyNameRules (detectFeaturesFromCounters fc) projectNameLower

/-! ### Stable descending sort by a numeric key

Python `sorted(xs, key=k, reverse=True)` and `xs.sort(key=k, reverse=True)`
are stable descending sorts.  `sortDescBy` below is the unique stable sort
for the key order, so it is extensionally the same function. -/

/-- Insert an element into a descending-sorted list, before the first element
with a strictly smaller key (so that, among equal keys, earlier elements of
the original list stay first — stability). -/
def insertDescBy (key : α → Nat) (a : α) : List α → List α
  | [] => [a]
  | b :: l => if key b ≤ key a then a :: b :: l else b :: insertDescBy key a l

/-- Stable descending insertion sort by key. -/
def sortDescBy (key : α → Nat) : List α → List α
  | [] => []
  | a :: l => insertDescBy key a (sortDescBy key l)

/-! ### Largest-files statistics (`StructureAnalyzer._collect_file_stats`, lines 150-161) -/

structure FileEntry where
  path : String
  size : Nat
deriving DecidableEq, Repr

/-- Size of the last element of the running list (only consulted when the list
is full, i.e. non-empty). -/
def lastEntrySize (cur : List FileEntry) : Nat :=
  match cur.getLast? with
  | some e => e.size
  | none => 0

/-- Per-file update of `stats["largest_files"]`: when the running list is not
yet full, or the new file is strictly larger than the current smallest kept
file, append it, re-sort descending by size, and keep the first five. -/
def largestFilesStep (cur : List FileEntry) (f : FileEntry) : List FileEntry :=
  if cur.length < 5 || lastEntrySize cur < f.size then
    (sortDescBy (fun e => e.size) (cur ++ [f])).take 5
  else cur

/-- The `largest_files` list computed over a walk that encounters the given
files in order. -/
def largestFiles (files : List FileEntry) : List FileEntry :=
  files.foldl largestFilesStep []

/-! ### Project entity (`src/domain/entities/project.py`) -/

structure Technology where
  name : String
  category : String
  version : Option String
  importance : Nat
deriving DecidableEq, Repr

/-- Model of `Project.get_primary_language` (project.py lines 58-69): filter
the technologies to the "language" category, stable-sort them by importance
descending, and return the first name; `none` when there is no language. -/
def getPrimaryLanguage (technologies : List Technology) : Option String :=
  match sortDescBy (fun t => t.importance) (technologies.filter (fun t => t.category == "language")) with
  | t :: _ => some t.name
  | [] => none

/-- Model of the `Project.main_language` property (project.py lines 84-100):
`none` on an empty technology list; otherwise stable-sort all technologies by
importance descending, return the first language name if any language exists,
and the overall first name otherwise. -/
def mainLanguage (technologies : List Technology) : Option String :=
  if technologies.isEmpty then none
  else
    let sortedTech := sortDescBy (fun t => t.importance) technologies
    match sortedTech.filter (fun t => t.category == "language") with
    | t :: _ => some t.name
    | [] =>
      match sortedTech with
      | t :: _ => some t.name
      | [] => none

/-! ### JavaScript package processing
(`TechnologyAnalyzer._parse_package_json` / `_process_js_packages`, lines 421-670) -/

/-- Curated library-table entry, field order as in the Python dict literals. -/
structure LibInfo where
  category : String
  importance : Nat
  name : String
deriving Repr

/-- Model of Python dict lookup on an ordered association list. -/
def assocGet (l : List (String × α)) (k : String) : Option α :=
  (l.find? (fun p => p.1 == k)).map (·.2)

/-- Model of Python `k in d`. -/
def assocHasKey (l : List (String × α)) (k : String) : Bool :=
  (assocGet l k).isSome

/-- Model of Python `d[k] = v` on an ordered association list. -/
def assocUpdate : List (String × α) → String → α → List (String × α)
  | [], k, v => [(k, v)]
  | (k', v') :: rest, k, v =>
    if k' == k then (k', v) :: rest else (k', v') :: assocUpdate rest k v

/-- Parsed `package.json` content as produced by `_parse_package_json`. -/
structure JsPackageData where
  name : String
  dependencies : List (String × String)
  devDependencies : List (String × String)
  scripts : List (String × String)

/-- The `all_dependencies` merge `{**dependencies, **devDependencies}`. -/
def allDependencies (packageData : JsPackageData) : List (String × String) :=
  packageData.devDependencies.foldl (fun l kv => assocUpdate l kv.1 kv.2)
    packageData.dependencies

/-- Table `frontend_frameworks` (lines 556-568). -/
def frontendFrameworks : List (String × LibInfo) :=
  [("react", ⟨"frontend", 5, "React"⟩), ("vue", ⟨"frontend", 5, "Vue.js"⟩),
   ("angular", ⟨"frontend", 5, "Angular"⟩), ("svelte", ⟨"frontend", 5, "Svelte"⟩),
   ("next", ⟨"frontend", 5, "Next.js"⟩), ("nuxt", ⟨"frontend", 5, "Nuxt.js"⟩),
   ("gatsby", ⟨"frontend", 4, "Gatsby"⟩), ("@angular/core", ⟨"frontend", 5, "Angular"⟩),
   ("jquery", ⟨"frontend", 3, "jQuery"⟩), ("bootstrap", ⟨"frontend", 3, "Bootstrap"⟩),
   ("tailwindcss", ⟨"frontend", 4, "Tailwind CSS"⟩)]

/-- Table `backend_frameworks` (lines 570-580). -/
def backendFrameworks : List (String × LibInfo) :=
  [("express", ⟨"backend", 5, "Express.js"⟩), ("koa", ⟨"backend", 5, "Koa.js"⟩),
   ("fastify", ⟨"backend", 4, "Fastify"⟩), ("nest", ⟨"backend", 5, "NestJS"⟩),
   ("@nestjs/core", ⟨"backend", 5, "NestJS"⟩), ("hapi", ⟨"backend", 4, "Hapi.js"⟩),
   ("feathers", ⟨"backend", 4, "Feathers.js"⟩), ("socket.io", ⟨"backend", 3, "Socket.IO"⟩),
   ("apollo-server", ⟨"backend", 4, "Apollo Server"⟩)]

/-- Table `database_libs` (lines 582-592). -/
def databaseLibs : List (String × LibInfo) :=
  [("mongoose", ⟨"database", 4, "MongoDB (Mongoose)"⟩), ("mongodb", ⟨"database", 4, "MongoDB"⟩),
   ("sequelize", ⟨"database", 4, "SQL (Sequelize)"⟩), ("typeorm", ⟨"database", 4, "TypeORM"⟩),
   ("prisma", ⟨"database", 4, "Prisma"⟩), ("pg", ⟨"database", 3, "PostgreSQL"⟩),
   ("mysql", ⟨"database", 3, "MySQL"⟩), ("sqlite3", ⟨"database", 3, "SQLite"⟩),
   ("redis", ⟨"database", 3, "Redis"⟩)]

/-- Table `testing_libs` (lines 594-604). -/
def testingLibs : List (String × LibInfo) :=
  [("jest", ⟨"testing", 4, "Jest"⟩), ("mocha", ⟨"testing", 4, "Mocha"⟩),
   ("chai", ⟨"testing", 3, "Chai"⟩), ("jasmine", ⟨"testing", 3, "Jasmine"⟩),
   ("karma", ⟨"testing", 3, "Karma"⟩), ("enzyme", ⟨"testing", 3, "Enzyme"⟩),
   ("@testing-library/react", ⟨"testing", 3, "React Testing Library"⟩),
   ("cypress", ⟨"testing", 4, "Cypress"⟩),
   ("selenium-webdriver", ⟨"testing", 3, "Selenium"⟩)]

/-- Table `devops_libs` (lines 606-617). -/
def devopsLibs : List (String × LibInfo) :=
  [("webpack", ⟨"devops", 4, "Webpack"⟩), ("babel", ⟨"devops", 3, "Babel"⟩),
   ("@babel/core", ⟨"devops", 3, "Babel"⟩), ("gulp", ⟨"devops", 3, "Gulp"⟩),
   ("grunt", ⟨"devops", 3, "Grunt"⟩), ("eslint", ⟨"devops", 3, "ESLint"⟩),
   ("prettier", ⟨"devops", 3, "Prettier"⟩), ("typescript", ⟨"language", 5, "TypeScript"⟩),
   ("ts-node", ⟨"devops", 3, "ts-node"⟩), ("vite", ⟨"devops", 4, "Vite"⟩)]

/-- Lookup in `all_libs = {**frontend, **backend, **database, **testing, **devops}`;
the five key sets are pairwise disjoint, and later tables would win on a
clash, hence the lookup order. -/
def allLibsFind (k : String) : Option LibInfo :=
  assocGet devopsLibs k <|> assocGet testingLibs k <|> assocGet databaseLibs k <|>
    assocGet backendFrameworks k <|> assocGet frontendFrameworks k

/-- Model of `lib.split(chr(47))[-1]` used for scoped package names. -/
def lastSlashSegment (lib : String) : String :=
  (((splitOnChar '/' lib.data).map String.mk).getLast?).getD lib

/-- Model of `TechnologyAnalyzer._process_js_packages` (lines 542-670). -/
def processJsPackages (packageData : JsPackageData) (result : TechDict) : TechDict :=
  let deps := allDependencies packageData
  let scripts := packageData.scripts
  let d := addTechnologyIfNotExists result "language" "JavaScript" 5
  let d :=
    if assocHasKey deps "typescript" || assocHasKey deps "ts-node" || assocHasKey scripts "tsc" then
      addTechnologyIfNotExists d "language" "TypeScript" 5
    else d
  let step := fun (st : TechDict × Bool × Bool) (kv : String × String) =>
    let lib := kv.1
    let libName := if pyStartsWith "@" lib then lastSlashSegment lib else lib
    let d' :=
      match allLibsFind lib with
      | some info => addTechnologyIfNotExists st.1 info.category info.name info.importance
      | none => st.1
    (d',
     st.2.1 || assocHasKey frontendFrameworks lib || assocHasKey frontendFrameworks libName,
     st.2.2 || assocHasKey backendFrameworks lib || assocHasKey backendFrameworks libName)
  let st := deps.foldl step (d, false, false)
  let d := st.1
  let d :=
    if st.2.1 && st.2.2 then addTechnologyIfNotExists d "other" "Fullstack JavaScript" 4 else d
  let d :=
    if assocHasKey deps "react" || assocHasKey deps "react-dom" then
      addTechnologyIfNotExists d "frontend" "React" 5
    else d
  let d :=
    if assocHasKey deps "react-native" then
      addTechnologyIfNotExists d "framework" "React Native" 5
    else d
  if scripts.isEmpty then d
  else
    let d :=
      match assocGet scripts "build" with
      | some b =>
        if containsSubStr "react-scripts" b || containsSubStr "next" b then
          addTechnologyIfNotExists d "frontend" "React" 5
        else d
      | none => d
    let d :=
      match assocGet scripts "dev" with
      | some v => if containsSubStr "next" v then addTechnologyIfNotExists d "frontend" "Next.js" 5 else d
      | none => d
    let d :=
      match assocGet scripts "dev" with
      | some v => if containsSubStr "nuxt" v then addTechnologyIfNotExists d "frontend" "Nuxt.js" 5 else d
      | none => d
    match assocGet scripts "start" with
    | some v => if containsSubStr "electron" v then addTechnologyIfNotExists d "framework" "Electron" 4 else d
    | none => d

/-! ### Directory scanner
(`TechnologyAnalyzer._check_framework_directories`, lines 283-374) -/

/-- Table `directory_to_tech` (lines 291-331). -/
def directoryToTech : List (String × LibInfo) :=
  [("node_modules", ⟨"language", 3, "Node.js"⟩), ("vendor", ⟨"devops", 3, "Composer (PHP)"⟩),
   ("migrations", ⟨"database", 3, "Database Migrations"⟩),
   ("controllers", ⟨"architecture", 3, "MVC Architecture"⟩),
   ("views", ⟨"architecture", 3, "MVC Architecture"⟩),
   ("models", ⟨"architecture", 3, "MVC Architecture"⟩),
   ("templates", ⟨"frontend", 3, "Template Engine"⟩),
   ("components", ⟨"frontend", 3, "Component-based Framework"⟩),
   ("pages", ⟨"frontend", 3, "Page-based Framework"⟩),
   ("routes", ⟨"backend", 3, "Routing"⟩),
   ("middlewares", ⟨"backend", 3, "Middleware Pattern"⟩),
   ("middleware", ⟨"backend", 3, "Middleware Pattern"⟩),
   ("hooks", ⟨"framework", 3, "Hook System"⟩),
   ("services", ⟨"architecture", 3, "Service Layer"⟩),
   ("repositories", ⟨"architecture", 3, "Repository Pattern"⟩),
   ("providers", ⟨"architecture", 3, "Provider Pattern"⟩),
   ("tests", ⟨"testing", 3, "Automated Tests"⟩), ("test", ⟨"testing", 3, "Automated Tests"⟩),
   ("spec", ⟨"testing", 3, "Automated Tests"⟩), ("scripts", ⟨"devops", 2, "Script Collection"⟩),
   ("docs", ⟨"other", 2, "Documentation"⟩), ("artifacts", ⟨"devops", 2, "Build Artifacts"⟩),
   ("dist", ⟨"devops", 2, "Distribution"⟩), ("build", ⟨"devops", 2, "Build Output"⟩),
   ("bin", ⟨"devops", 2, "Binaries"⟩), ("obj", ⟨"devops", 2, ".NET Object Files"⟩),
   ("packages", ⟨"devops", 2, "Package Management"⟩),
   ("modules", ⟨"architecture", 2, "Module System"⟩), ("api", ⟨"backend", 3, "API"⟩),
   ("public", ⟨"frontend", 2, "Public Assets"⟩), ("static", ⟨"frontend", 2, "Static Assets"⟩),
   ("assets", ⟨"frontend", 2, "Asset Files"⟩), ("styles", ⟨"frontend", 2, "CSS Styles"⟩),
   ("images", ⟨"frontend", 2, "Image Files"⟩), ("fonts", ⟨"frontend", 2, "Font Files"⟩),
   ("config", ⟨"devops", 2, "Configuration"⟩), ("configs", ⟨"devops", 2, "Configuration"⟩),
   ("configuration", ⟨"devops", 2, "Configuration"⟩),
   ("environments", ⟨"devops", 2, "Environment Config"⟩)]

/-- Model of `_check_framework_directories`: `dirNames` lists the directory
names the depth-bounded, ignore-aware walk encounters, in walk order. -/
def checkFrameworkDirectories (dirNames : List String) (result : TechDict) : TechDict :=
  dirNames.foldl
    (fun d dirName =>
      let dl := pyLower dirName
      if pyStartsWith "." dl then d
      else
        let d :=
          match assocGet directoryToTech dl with
          | some info => addTechnologyIfNotExists d info.category info.name info.importance
          | none => d
        if dl == "angular" then addTechnologyIfNotExists d "frontend" "Angular" 4
        else if dl == "react" then addTechnologyIfNotExists d "frontend" "React" 4
        else if dl == "vue" then addTechnologyIfNotExists d "frontend" "Vue.js" 4
        else if dl == "django" then addTechnologyIfNotExists d "framework" "Django" 4
        else if dl == "flask" then addTechnologyIfNotExists d "framework" "Flask" 4
        else if dl == "spring" then addTechnologyIfNotExists d "framework" "Spring" 4
        else if dl == "laravel" then addTechnologyIfNotExists d "framework" "Laravel" 4
        else if dl == "express" then addTechnologyIfNotExists d "backend" "Express.js" 4
        else if dl == "react-native" then addTechnologyIfNotExists d "framework" "React Native" 4
        else if dl == "flutter" then addTechnologyIfNotExists d "framework" "Flutter" 4
        else d)
    result

/-- Model of `ProjectAnalyzer._convert_technologies_data` (lines 453-475):
flatten the dictionary, in key order, into `Technology` values (no `version`
key is ever set by the detectors modelled here, and `importance` is present). -/
def convertTechnologiesData (d : TechDict) : List Technology :=
  d.foldl (fun acc p => acc ++ p.2.map (fun it => ⟨it.name, p.1, none, it.importance⟩)) []

/-! ### Architecture description
(`ProjectAnalyzer._detect_architecture_description`, lines 690-792) -/

/-- Model of `_detect_architecture_description`.  Filesystem-derived facts are
passed as arguments: `dirNamesLower` are the lower-cased names of the
directories at depth 1 (under `src` when it exists, else the project root);
`servicesSubdirsGT2` says whether the `services` directory has more than two
subdirectories; `hasFactoryFile` whether any file under the scanned
directories has "factory" in its name; `domainContents` the directory listing
of `domain` when it is a directory; `srcSubdirs` the subdirectories of `src`
when `src` is listed at the root. -/
def architectureDescription (dirNamesLower : List String) (servicesSubdirsGT2 : Bool)
    (hasFactoryFile : Bool) (domainContents : Option (List String))
    (technologies : List Technology) (srcSubdirs : Option (List String)) : String :=
  let has := fun (d : String) => dirNamesLower.contains d
  let comps : List String := []
  let comps :=
    if ["models", "views", "controllers"].all has then comps ++ ["MVC (Model-View-Controller)"]
    else comps
  let comps :=
    if ["models", "views", "viewmodels"].all has then comps ++ ["MVVM (Model-View-ViewModel)"]
    else comps
  let comps :=
    if ["models", "views", "presenters"].all has then comps ++ ["MVP (Model-View-Presenter)"]
    else comps
  let comps :=
    if (["domain", "entities"].any has) && (["application", "usecases", "use_cases"].any has) &&
       (["infrastructure", "frameworks"].any has) then
      comps ++ ["Clean Architecture"]
    else comps
  let layerCount :=
    (["data", "domain", "application", "presentation", "ui", "persistence"].filter has).length
  let comps := if 2 ≤ layerCount then comps ++ ["Layered Architecture"] else comps
  let comps :=
    if has "services" && servicesSubdirsGT2 then comps ++ ["Service-Oriented Architecture"]
    else comps
  let comps := if has "repositories" then comps ++ ["Repository Pattern"] else comps
  let comps := if hasFactoryFile then comps ++ ["Factory Pattern"] else comps
  let techNames := technologies.map (fun t => pyLower t.name)
  let comps :=
    if techNames.contains "django" then comps ++ ["Django MTV (Model-Template-View)"] else comps
  let comps :=
    if techNames.contains "flask" || techNames.contains "fastapi" then comps ++ ["REST API"]
    else comps
  let comps :=
    if techNames.contains "express" then comps ++ ["Express.js Middleware Architecture"]
    else comps
  let comps :=
    if techNames.contains "react" then comps ++ ["Component-Based Architecture"] else comps
  let comps :=
    if has "domain" &&
       (match domainContents with
        | some contents =>
          ["aggregates", "entities", "value_objects", "services"].any
            (fun n => (contents.map pyLower).contains n)
        | none => false) then
      comps ++ ["Domain-Driven Design (DDD)"]
    else comps
  let base :=
    if comps.isEmpty then
      let techArch := (technologies.filter (fun t => t.category == "architecture")).map (·.name)
      if techArch.isEmpty then "Standard application architecture."
      else
        "The project uses the following architectural approaches: " ++
          String.intercalate ", " techArch ++ "."
    else
      "The project uses the following architectural approaches and patterns: " ++
        String.intercalate ", " comps ++ "."
  match srcSubdirs with
  | some (m :: ms) => base ++ " Main modules: " ++ String.intercalate ", " (m :: ms) ++ "."
  | _ => base

/-! ### The end-to-end demo project of the specification: a root containing
`package.json` with one dependency `express` and a `routes/` directory. -/

/-- Parsed `package.json` of the demo project. -/
def demoPackageData : JsPackageData :=
  ⟨"demo", [("express", "^4.0")], [], []⟩

/-- Technology dictionary after the package and directory stages on the demo
project (the census, config-marker and enrichment stages contribute nothing
relevant: the project has no source files and no marker maps to a technology
named "express"). -/
def demoTechDict : TechDict :=
  checkFrameworkDirectories ["routes"] (processJsPackages demoPackageData initTechDict)

/-- Final technology list of the demo project. -/
def demoTechnologies : List Technology :=
  convertTechnologiesData demoTechDict

/-- Architecture description of the demo project: the root's only
subdirectory is `routes`, there is no `services`/`domain`/`src` directory and
no file with "factory" in its name. -/
def demoArchitectureDescription : String :=
  architectureDescription ["routes"] false false none demoTechnologies none

/-! ### Helper lemmas -/

theorem foldl_if_count (p : α → Bool) (l : List α) (acc : Nat) :
    l.foldl (fun a x => if p x then a + 1 else a) acc = acc + l.countP p := by
  induction l generalizing acc with
  | nil => simp
  | cons x xs ih =>
    by_cases h : p x = true
    · simp [List.countP_cons, h, ih]
      omega
    · simp [List.countP_cons, h, ih]

theorem foldl_add_map_sum (g : α → Nat) (l : List α) (acc : Nat) :
    l.foldl (fun a x => a + g x) acc = acc + (l.map g).sum := by
  induction l generalizing acc with
  | nil => simp
  | cons x xs ih => simp [ih]; omega

/-! ### Theorems for the frozen claims -/

/-- C3 counterexample: in a file whose content is "flask flask", the keyword
"flask" occurs twice, so the claimed occurrence-individual counting predicts a
web increment of 2, but the code's per-keyword substring membership test
increments the web counter by exactly 1. -/
theorem keyword_occurrence_counting_counterexample :
    substrOccurrences "flask" "flask flask" = 2 ∧
    fileCategoryIncrementSpec webIndicators "flask flask" = 2 ∧
    fileCategoryIncrement webIndicators "flask flask" = 1 := by
  decide

/-- C3 (amended): for every sampled source file (at most 50 files taken from
the recognized-extension list, content lower-cased), every category keyword
that occurs in the content as a substring increments that category's counter
by exactly 1 per file — repeated occurrences of the same keyword within one
file count once, not individually. -/
theorem keyword_presence_counting :
    (∀ (indicators : List String) (content : String),
      fileCategoryIncrement indicators content =
        indicators.countP (fun ind => containsSubStr ind content)) ∧
    (∀ (indicators : List String) (contents : List String),
      featureCategoryCounter indicators contents =
        ((contents.take 50).map (fun c =>
          indicators.countP (fun ind => containsSubStr ind c))).sum ∧
      (contents.take 50).length ≤ 50) := by
  constructor
  · intro indicators content
    simpa using foldl_if_count (fun ind => containsSubStr ind content) indicators 0
  · intro indicators contents
    constructor
    · have hfc : ∀ c : String, fileCategoryIncrement indicators c =
          indicators.countP (fun ind => containsSubStr ind c) := fun c => by
        simpa using foldl_if_count (fun ind => containsSubStr ind c) indicators 0
      simp only [featureCategoryCounter, hfc]
      simpa using foldl_add_map_sum
        (fun c => indicators.countP (fun ind => containsSubStr ind c)) (contents.take 50) 0
    · simp [List.length_take]

/-- C4: with only the web counter set, no feature is emitted below 8, and the
emitted "Web Application" feature has priority 3 from 8, 4 from 10, and 5 from
15; a non-web/cli/api category such as database uses threshold 5 instead. -/
theorem feature_threshold_boundaries :
    detectFeaturesFromCounters { zeroCounters with web := 7 } = [] ∧
    detectFeaturesFromCounters { zeroCounters with web := 8 } =
      [⟨"Web Application", "Provides a web interface for user interaction", "web", 3⟩] ∧
    detectFeaturesFromCounters { zeroCounters with web := 10 } =
      [⟨"Web Application", "Provides a web interface for user interaction", "web", 4⟩] ∧
    detectFeaturesFromCounters { zeroCounters with web := 15 } =
      [⟨"Web Application", "Provides a web interface for user interaction", "web", 5⟩] ∧
    (∀ n : Nat, detectFeaturesFromCounters { zeroCounters with web := n } =
      if 15 ≤ n then
        [⟨"Web Application", "Provides a web interface for user interaction", "web", 5⟩]
      else if 10 ≤ n then
        [⟨"Web Application", "Provides a web interface for user interaction", "web", 4⟩]
      else if 8 ≤ n then
        [⟨"Web Application", "Provides a web interface for user interaction", "web", 3⟩]
      else []) ∧
    (∀ n : Nat, detectFeaturesFromCounters { zeroCounters with database := n } =
      if 15 ≤ n then
        [⟨"Database Operations", "Storage and management of data in databases", "database", 5⟩]
      else if 10 ≤ n then
        [⟨"Database Operations", "Storage and management of data in databases", "database", 4⟩]
      else if 5 ≤ n then
        [⟨"Database Operations", "Storage and management of data in databases", "database", 3⟩]
      else []) := by
  refine ⟨by decide, by decide, by decide, by decide, ?_, ?_⟩
  · intro n
    by_cases h8 : 8 ≤ n
    · by_cases h15 : 15 ≤ n
      · simp [detectFeaturesFromCounters, emitFeature, featureThreshold, featurePriority,
          zeroCounters, h8, h15]
      · by_cases h10 : 10 ≤ n
        · simp [detectFeaturesFromCounters, emitFeature, featureThreshold, featurePriority,
            zeroCounters, h8, h10, h15]
        · simp [detectFeaturesFromCounters, emitFeature, featureThreshold, featurePriority,
            zeroCounters, h8, h10, h15]
    · have h15 : ¬ 15 ≤ n := by omega
      have h10 : ¬ 10 ≤ n := by omega
      simp [detectFeaturesFromCounters, emitFeature, featureThreshold, featurePriority,
        zeroCounters, h8, h10, h15]
  · intro n
    by_cases h5 : 5 ≤ n
    · by_cases h15 : 15 ≤ n
      · simp [detectFeaturesFromCounters, emitFeature, featureThreshold, featurePriority,
          zeroCounters, h5, h15]
      · by_cases h10 : 10 ≤ n
        · simp [detectFeaturesFromCounters, emitFeature, featureThreshold, featurePriority,
            zeroCounters, h5, h10, h15]
        · simp [detectFeaturesFromCounters, emitFeature, featureThreshold, featurePriority,
            zeroCounters, h5, h10, h15]
    · have h15 : ¬ 15 ≤ n := by omega
      have h10 : ¬ 10 ≤ n := by omega
      simp [detectFeaturesFromCounters, emitFeature, featureThreshold, featurePriority,
        zeroCounters, h5, h10, h15]

/-- C5: "flask==2.0.1" parses to (flask, 2.0.1); blank and comment lines yield
no package; "requests>=2.0" parses to (requests, 2.0); and any trimmed,
non-comment line containing none of the four version operators parses to a
bare name with empty version. -/
theorem requirements_line_parsing :
    parseRequirementLine "flask==2.0.1" = some ⟨"flask", "2.0.1"⟩ ∧
    parseRequirementLine "" = none ∧
    parseRequirementLine "# comment" = none ∧
    parseRequirementLine "requests>=2.0" = some ⟨"requests", "2.0"⟩ ∧
    (∀ line : String, pyStrip line = line → (line == "") = false →
      pyStartsWith "#" line = false →
      splitFirstOn "==" line = none → splitFirstOn ">=" line = none →
      splitFirstOn "<=" line = none → splitFirstOn "~=" line = none →
      parseRequirementLine line = some ⟨line, ""⟩) := by
  refine ⟨by decide, by decide, by decide, by decide, ?_⟩
  intro line hstrip hempty hhash h1 h2 h3 h4
  simp [parseRequirementLine, hstrip, hempty, hhash, h1, h2, h3, h4]

/-- C5 witness: the general bare-name case applied to the concrete line
"numpy". -/
theorem requirements_line_parsing_witness :
    parseRequirementLine "numpy" = some ⟨"numpy", ""⟩ :=
  requirements_line_parsing.2.2.2.2 "numpy" (by decide) (by decide) (by decide)
    (by decide) (by decide) (by decide) (by decide)

/-- C6 counterexample: for a README whose very first line is non-empty and not
a heading, the claimed provider returns that line, but the code returns
nothing from the README (the loop requires the line index to be positive). -/
theorem readme_first_line_counterexample :
    readmeDescriptionSpec "My project" = some "My project" ∧
    readmeDescription "My project" = none := by
  decide

/-- C6 (amended): the README provider returns the first non-heading, non-empty
line *among the lines after the first one* (the very first line is always
skipped), stripped and truncated to 200 characters with an ellipsis appended
when longer. -/
theorem readme_description_skips_first_line :
    ∀ content : String,
      readmeDescription content =
        (((pySplitLines content).drop 1).find?
            (fun l => (pyStrip l != "") && !(pyStartsWith "#" l))).map
          (fun l => truncateDescription (pyStrip l)) := by
  have hpos : ∀ (ls : List String) (i : Nat), 0 < i →
      readmeLineLoop ls i =
        (ls.find? (fun l => (pyStrip l != "") && !(pyStartsWith "#" l))).map
          (fun l => truncateDescription (pyStrip l)) := by
    intro ls
    induction ls with
    | nil => intro i _; simp [readmeLineLoop]
    | cons l ls ih =>
      intro i hi
      have hdec : decide (0 < i) = true := decide_eq_true hi
      by_cases h : ((pyStrip l != "") && !(pyStartsWith "#" l)) = true
      · simp [readmeLineLoop, h, hdec, List.find?_cons]
      · have h' : ((pyStrip l != "") && !(pyStartsWith "#" l)) = false := by
          simpa using h
        simp [readmeLineLoop, h', hdec, List.find?_cons, ih (i + 1) (by omega)]
  intro content
  cases hsplit : pySplitLines content with
  | nil => simp [readmeDescription, hsplit, readmeLineLoop]
  | cons l ls =>
    simp only [readmeDescription, hsplit, List.drop_succ_cons, List.drop_zero]
    rw [show readmeLineLoop (l :: ls) 0 = readmeLineLoop ls 1 by
      simp [readmeLineLoop]]
    exact hpos ls 1 (by omega)

/-! ### Registry lemmas for C1 and C2 -/

theorem dictFind_dictSet (d : TechDict) (k : String) (v : List TechEntry) :
    dictFind (dictSet d k v) k = some v := by
  induction d with
  | nil => simp [dictSet, dictFind]
  | cons p rest ih =>
    by_cases h : p.1 == k
    · simp [dictSet, dictFind, h]
    · simpa [dictSet, dictFind, h] using ih

theorem upsertEntry_of_absent (l : List TechEntry) (n : String) (i : Nat)
    (h : l.all (fun t => t.name != n) = true) :
    upsertEntry l n i = l ++ [⟨n, i⟩] := by
  induction l with
  | nil => simp [upsertEntry]
  | cons t ts ih =>
    simp only [List.all_cons, Bool.and_eq_true, bne_iff_ne] at h
    simp [upsertEntry, beq_eq_false_iff_ne.mpr h.1, ih h.2]

theorem upsertEntry_append_last (l : List TechEntry) (n : String) (a b : Nat)
    (h : l.all (fun t => t.name != n) = true) :
    upsertEntry (l ++ [⟨n, a⟩]) n b = l ++ [⟨n, if a < b then b else a⟩] := by
  induction l with
  | nil => by_cases hab : a < b <;> simp [upsertEntry, hab]
  | cons t ts ih =>
    simp only [List.all_cons, Bool.and_eq_true, bne_iff_ne] at h
    simp [upsertEntry, beq_eq_false_iff_ne.mpr h.1, ih h.2]

theorem filter_append_singleton (l : List TechEntry) (n : String) (i : Nat)
    (h : l.all (fun t => t.name != n) = true) :
    (l ++ [(⟨n, i⟩ : TechEntry)]).filter (fun t => t.name == n) = [(⟨n, i⟩ : TechEntry)] := by
  induction l with
  | nil => simp [List.filter]
  | cons t ts ih =>
    simp only [List.all_cons, Bool.and_eq_true, bne_iff_ne] at h
    simp [List.filter_cons, beq_eq_false_iff_ne.mpr h.1, ih h.2]

/-- C1: upserting the same (category, name) with importance 3, then 5, then 2
into a dictionary whose category list has no entry of that name leaves the
category list with the original entries plus exactly one new entry, of
importance 5: the merge takes the maximum and never duplicates or downgrades. -/
theorem upsert_monotone_max_merge (d : TechDict) (category name : String)
    (h : ((dictFind d category).getD []).all (fun t => t.name != name) = true) :
    dictFind (addTechnologyIfNotExists (addTechnologyIfNotExists
        (addTechnologyIfNotExists d category name 3) category name 5) category name 2)
      category = some (((dictFind d category).getD []) ++ [(⟨name, 5⟩ : TechEntry)]) ∧
    ((((dictFind d category).getD []) ++ [(⟨name, 5⟩ : TechEntry)]).filter
      (fun t => t.name == name)) = [(⟨name, 5⟩ : TechEntry)] := by
  have e1 : addTechnologyIfNotExists d category name 3 =
      dictSet d category (((dictFind d category).getD []) ++ [(⟨name, 3⟩ : TechEntry)]) := by
    unfold addTechnologyIfNotExists
    rw [upsertEntry_of_absent _ _ _ h]
  have f1 := dictFind_dictSet d category
    (((dictFind d category).getD []) ++ [(⟨name, 3⟩ : TechEntry)])
  have e2 : addTechnologyIfNotExists (addTechnologyIfNotExists d category name 3)
      category name 5 =
      dictSet (dictSet d category (((dictFind d category).getD []) ++ [(⟨name, 3⟩ : TechEntry)]))
        category (((dictFind d category).getD []) ++ [(⟨name, 5⟩ : TechEntry)]) := by
    rw [e1]
    unfold addTechnologyIfNotExists
    rw [f1]
    simp only [Option.getD_some]
    rw [upsertEntry_append_last _ _ _ _ h]
    norm_num
  have f2 := dictFind_dictSet
    (dictSet d category (((dictFind d category).getD []) ++ [(⟨name, 3⟩ : TechEntry)]))
    category (((dictFind d category).getD []) ++ [(⟨name, 5⟩ : TechEntry)])
  have e3 : addTechnologyIfNotExists (addTechnologyIfNotExists
      (addTechnologyIfNotExists d category name 3) category name 5) category name 2 =
      dictSet (dictSet
          (dictSet d category (((dictFind d category).getD []) ++ [(⟨name, 3⟩ : TechEntry)]))
          category (((dictFind d category).getD []) ++ [(⟨name, 5⟩ : TechEntry)]))
        category (((dictFind d category).getD []) ++ [(⟨name, 5⟩ : TechEntry)]) := by
    rw [e2]
    unfold addTechnologyIfNotExists
    rw [f2]
    simp only [Option.getD_some]
    rw [upsertEntry_append_last _ _ _ _ h]
    norm_num
  refine ⟨?_, filter_append_singleton _ _ _ h⟩
  rw [e3]
  exact dictFind_dictSet _ _ _

/-- C1 witness: the three upserts at category "language", name "Python" on the
initial nine-category dictionary. -/
theorem upsert_monotone_max_merge_witness :
    (((dictFind initTechDict "language").getD []).all
      (fun t => t.name != "Python") = true) ∧
    (dictFind (addTechnologyIfNotExists (addTechnologyIfNotExists
        (addTechnologyIfNotExists initTechDict "language" "Python" 3)
        "language" "Python" 5) "language" "Python" 2) "language" =
      some (((dictFind initTechDict "language").getD []) ++ [(⟨"Python", 5⟩ : TechEntry)]) ∧
    ((((dictFind initTechDict "language").getD []) ++ [(⟨"Python", 5⟩ : TechEntry)]).filter
      (fun t => t.name == "Python")) = [(⟨"Python", 5⟩ : TechEntry)]) :=
  ⟨by decide, upsert_monotone_max_merge initTechDict "language" "Python" (by decide)⟩

theorem find?_append_of_some {p : (String × List TechEntry) → Bool}
    (d e : TechDict) (x : String × List TechEntry) (h : d.find? p = some x) :
    (d ++ e).find? p = some x := by
  induction d with
  | nil => simp [List.find?] at h
  | cons q rest ih =>
    by_cases hq : p q
    · simp only [List.find?_cons_of_pos _ hq] at h
      simpa [List.find?_cons_of_pos _ hq] using h
    · simp only [List.find?_cons_of_neg _ hq] at h
      simpa [List.find?_cons_of_neg _ hq] using ih h

theorem hasKey_mono (d e : TechDict) (k : String) (h : hasKey d k = true) :
    hasKey (d ++ e) k = true := by
  unfold hasKey dictFind at h ⊢
  cases hfind : d.find? (fun p => p.1 == k) with
  | none => rw [hfind] at h; simp at h
  | some x =>
    rw [find?_append_of_some d e x hfind]
    simp

theorem hasKey_append_self (d : TechDict) (k : String) (v : List TechEntry) :
    hasKey (d ++ [(k, v)]) k = true := by
  induction d with
  | nil => simp [hasKey, dictFind]
  | cons q rest ih =>
    by_cases hq : q.1 == k
    · simp [hasKey, dictFind, List.find?_cons_of_pos, hq]
    · simp [hasKey, dictFind, List.find?_cons_of_neg, hq]

theorem hasKey_fillStep (d : TechDict) (c k : String) (h : hasKey d k = true) :
    hasKey (if hasKey d c then d else d ++ [(c, [])]) k = true := by
  by_cases hc : hasKey d c <;> simp [hc, h, hasKey_mono _ _ _ h]

theorem hasKey_fill_foldl (cs : List String) (d : TechDict) (k : String)
    (h : hasKey d k = true) :
    hasKey (cs.foldl (fun d c => if hasKey d c then d else d ++ [(c, [])]) d) k = true := by
  induction cs generalizing d with
  | nil => simpa
  | cons c cs ih => exact ih _ (hasKey_fillStep d c k h)

theorem hasKey_fill_mem (cs : List String) (d : TechDict) (k : String)
    (h : k ∈ cs) :
    hasKey (cs.foldl (fun d c => if hasKey d c then d else d ++ [(c, [])]) d) k = true := by
  induction cs generalizing d with
  | nil => cases h
  | cons c cs ih =>
    simp only [List.foldl_cons]
    rcases List.mem_cons.mp h with hk | hk
    · subst hk
      apply hasKey_fill_foldl
      by_cases hc : hasKey d k = true
      · simp [hc]
      · simp [hc, hasKey_append_self]
    · exact ih _ hk

/-- C2: whatever upsert facts the detectors contribute and whatever libraries
the source enricher appends, the technology mapping that reaches
`_convert_technologies_data` — after the aggregator's category fill-in — has
all nine category keys. -/
theorem pipeline_has_all_nine_categories :
    ∀ (upserts : List (String × String × Nat)) (enrichments : List (String × String)),
      requiredCategories.all
        (fun c => hasKey (pipelineTechDict upserts enrichments) c) = true := by
  intro upserts enrichments
  rw [List.all_eq_true]
  intro c hc
  show hasKey (pipelineTechDict upserts enrichments) c = true
  unfold pipelineTechDict fillRequiredCategories
  exact hasKey_fill_mem requiredCategories _ c hc

/-! ### Lemmas about the stable descending sort -/

theorem mem_insertDescBy (key : α → Nat) (a x : α) (l : List α) :
    x ∈ insertDescBy key a l ↔ x = a ∨ x ∈ l := by
  induction l with
  | nil => simp [insertDescBy]
  | cons b l ih =>
    by_cases h : key b ≤ key a
    · simp only [insertDescBy, if_pos h]
      simp
    · simp only [insertDescBy, if_neg h]
      simp [ih]
      tauto

theorem mem_sortDescBy (key : α → Nat) (x : α) (l : List α) :
    x ∈ sortDescBy key l ↔ x ∈ l := by
  induction l with
  | nil => simp [sortDescBy]
  | cons a l ih => simp [sortDescBy, mem_insertDescBy, ih]

theorem pairwise_insertDescBy (key : α → Nat) (a : α) (l : List α)
    (h : l.Pairwise (fun x y => key y ≤ key x)) :
    (insertDescBy key a l).Pairwise (fun x y => key y ≤ key x) := by
  induction l with
  | nil => simp [insertDescBy]
  | cons b l ih =>
    rcases List.pairwise_cons.mp h with ⟨hb, hl⟩
    simp only [insertDescBy]
    by_cases hba : key b ≤ key a
    · rw [if_pos hba]
      refine List.pairwise_cons.mpr ⟨?_, h⟩
      intro c hc
      rcases List.mem_cons.mp hc with rfl | hcl
      · exact hba
      · exact le_trans (hb c hcl) hba
    · rw [if_neg hba]
      refine List.pairwise_cons.mpr ⟨?_, ih hl⟩
      intro c hc
      rcases (mem_insertDescBy key a c l).mp hc with rfl | hcl
      · omega
      · exact hb c hcl

theorem pairwise_sortDescBy (key : α → Nat) (l : List α) :
    (sortDescBy key l).Pairwise (fun x y => key y ≤ key x) := by
  induction l with
  | nil => simp [sortDescBy]
  | cons a l ih => exact pairwise_insertDescBy key a _ ih

theorem length_insertDescBy (key : α → Nat) (a : α) (l : List α) :
    (insertDescBy key a l).length = l.length + 1 := by
  induction l with
  | nil => rfl
  | cons b l ih =>
    by_cases h : key b ≤ key a
    · simp [insertDescBy, h]
    · simp [insertDescBy, h, ih]

theorem length_sortDescBy (key : α → Nat) (l : List α) :
    (sortDescBy key l).length = l.length := by
  induction l with
  | nil => rfl
  | cons a l ih => simp [sortDescBy, length_insertDescBy, ih]

theorem sortDescBy_head_max (key : α → Nat) (l : List α) (t : α) (rest : List α)
    (h : sortDescBy key l = t :: rest) :
    t ∈ l ∧ ∀ u ∈ l, key u ≤ key t := by
  have hmem : t ∈ l := (mem_sortDescBy key t l).mp (h ▸ List.mem_cons_self t rest)
  refine ⟨hmem, ?_⟩
  intro u hu
  have hu' : u ∈ t :: rest := h ▸ (mem_sortDescBy key u l).mpr hu
  rcases List.mem_cons.mp hu' with rfl | hur
  · exact le_refl _
  · have hpw := pairwise_sortDescBy key l
    rw [h] at hpw
    exact (List.pairwise_cons.mp hpw).1 u hur

theorem sorted_filter_head_max (key : α → Nat) (p : α → Bool) (l : List α)
    (hpw : l.Pairwise (fun x y => key y ≤ key x)) (t : α) (rest : List α)
    (hfilter : l.filter p = t :: rest) :
    ∀ u ∈ l, p u = true → key u ≤ key t := by
  induction l with
  | nil => simp [List.filter] at hfilter
  | cons b l ih =>
    rcases List.pairwise_cons.mp hpw with ⟨hb, hl⟩
    intro u hu hpu
    by_cases hpb : p b = true
    · rw [List.filter_cons_of_pos hpb] at hfilter
      have hbt : b = t := (List.cons.injEq _ _ _ _ ▸ hfilter).1
      rcases List.mem_cons.mp hu with rfl | hul
      · exact hbt ▸ le_refl _
      · exact hbt ▸ hb u hul
    · rw [List.filter_cons_of_neg (by simpa using hpb)] at hfilter
      rcases List.mem_cons.mp hu with rfl | hul
      · exact absurd hpu hpb
      · exact ih hl hfilter u hul hpu

/-- C9: for every sequence of encountered files, the computed `largest_files`
list has at most 5 entries and is ordered non-increasing by size. -/
theorem largest_files_bounded_sorted :
    ∀ files : List FileEntry,
      (largestFiles files).length ≤ 5 ∧
      (largestFiles files).Pairwise (fun a b => b.size ≤ a.size) := by
  have hstep : ∀ (cur : List FileEntry) (f : FileEntry),
      cur.length ≤ 5 → cur.Pairwise (fun a b => b.size ≤ a.size) →
      (largestFilesStep cur f).length ≤ 5 ∧
        (largestFilesStep cur f).Pairwise (fun a b => b.size ≤ a.size) := by
    intro cur f h1 h2
    unfold largestFilesStep
    by_cases hc : (decide (cur.length < 5) || decide (lastEntrySize cur < f.size)) = true
    · rw [if_pos hc]
      constructor
      · simp [List.length_take]
      · exact List.Pairwise.sublist (List.take_sublist _ _)
          (pairwise_sortDescBy (fun e => e.size) (cur ++ [f]))
    · rw [if_neg hc]
      exact ⟨h1, h2⟩
  have hfold : ∀ (fs : List FileEntry) (cur : List FileEntry),
      cur.length ≤ 5 → cur.Pairwise (fun a b => b.size ≤ a.size) →
      (fs.foldl largestFilesStep cur).length ≤ 5 ∧
        (fs.foldl largestFilesStep cur).Pairwise (fun a b => b.size ≤ a.size) := by
    intro fs
    induction fs with
    | nil => intro cur h1 h2; exact ⟨h1, h2⟩
    | cons f fs ih =>
      intro cur h1 h2
      have h := hstep cur f h1 h2
      simpa using ih _ h.1 h.2
  intro files
  exact hfold files [] (by simp) (by simp)

/-! ### Lemmas and theorems for the primary-language claim -/

theorem getPrimaryLanguage_eq (techs : List Technology) :
    getPrimaryLanguage techs =
      ((sortDescBy (fun t => t.importance)
        (techs.filter (fun t => t.category == "language"))).head?).map (fun t => t.name) := by
  unfold getPrimaryLanguage
  cases sortDescBy (fun t => t.importance)
    (techs.filter (fun t => t.category == "language")) <;> simp

/-- C10 counterexample: a project whose only technology is the framework
"Flask" has no language technology, so the claim predicts that both functions
return None; `get_primary_language` does, but `main_language` returns the
name of the most important non-language technology instead. -/
theorem main_language_no_language_counterexample :
    getPrimaryLanguage [⟨"Flask", "framework", none, 5⟩] = none ∧
    ([(⟨"Flask", "framework", none, 5⟩ : Technology)].filter
      (fun t => t.category == "language")) = [] ∧
    mainLanguage [⟨"Flask", "framework", none, 5⟩] = some "Flask" := by
  decide

/-- C10 (amended): `get_primary_language` returns None exactly when no
technology has category "language" and otherwise the name of a
maximal-importance language; `main_language` returns None exactly when the
technology list is empty, the name of a maximal-importance language when one
exists, and otherwise the name of a maximal-importance technology overall. -/
theorem primary_language_resolution :
    ∀ technologies : List Technology,
      (getPrimaryLanguage technologies = none ↔
        technologies.filter (fun t => t.category == "language") = []) ∧
      (mainLanguage technologies = none ↔ technologies = []) ∧
      (technologies.filter (fun t => t.category == "language") ≠ [] →
        (∃ t, t ∈ technologies ∧ t.category = "language" ∧
          getPrimaryLanguage technologies = some t.name ∧
          ∀ u ∈ technologies, u.category = "language" → u.importance ≤ t.importance) ∧
        (∃ t, t ∈ technologies ∧ t.category = "language" ∧
          mainLanguage technologies = some t.name ∧
          ∀ u ∈ technologies, u.category = "language" → u.importance ≤ t.importance)) ∧
      (technologies ≠ [] →
        technologies.filter (fun t => t.category == "language") = [] →
        ∃ t, t ∈ technologies ∧ mainLanguage technologies = some t.name ∧
          ∀ u ∈ technologies, u.importance ≤ t.importance) := by
  intro techs
  refine ⟨?_, ?_, ?_, ?_⟩
  · rw [getPrimaryLanguage_eq]
    constructor
    · intro h
      rw [Option.map_eq_none', List.head?_eq_none_iff] at h
      have hlen := length_sortDescBy (fun t => t.importance)
        (techs.filter (fun t => t.category == "language"))
      rw [h] at hlen
      exact List.length_eq_zero.mp hlen.symm
    · intro h
      rw [h]
      rfl
  · constructor
    · intro h
      by_contra hne
      have hempty : techs.isEmpty = false := by
        simpa using hne
      unfold mainLanguage at h
      rw [hempty] at h
      simp only [Bool.false_eq_true, if_false] at h
      cases hf : (sortDescBy (fun t => t.importance) techs).filter
          (fun t => t.category == "language") with
      | cons t rest =>
        rw [hf] at h
        cases h
      | nil =>
        rw [hf] at h
        cases hs : sortDescBy (fun t => t.importance) techs with
        | cons t rest =>
          rw [hs] at h
          cases h
        | nil =>
          have hlen := length_sortDescBy (fun t => t.importance) techs
          rw [hs] at hlen
          exact hne (List.length_eq_zero.mp hlen.symm)
    · intro h
      subst h
      rfl
  · intro hne
    obtain ⟨t, rest, hs⟩ : ∃ t rest, sortDescBy (fun t => t.importance)
        (techs.filter (fun t => t.category == "language")) = t :: rest := by
      cases hs : sortDescBy (fun t => t.importance)
          (techs.filter (fun t => t.category == "language")) with
      | nil =>
        have hlen := length_sortDescBy (fun t => t.importance)
          (techs.filter (fun t => t.category == "language"))
        rw [hs] at hlen
        exact absurd (List.length_eq_zero.mp hlen.symm) hne
      | cons t rest => exact ⟨t, rest, rfl⟩
    have hmax := sortDescBy_head_max (fun t => t.importance) _ t rest hs
    have htf := List.mem_filter.mp hmax.1
    constructor
    · refine ⟨t, htf.1, by simpa using htf.2, ?_, ?_⟩
      · rw [getPrimaryLanguage_eq, hs]
        rfl
      · intro u hu hucat
        exact hmax.2 u (List.mem_filter.mpr ⟨hu, by simpa using hucat⟩)
    · have hne2 : techs ≠ [] := by
        intro h
        rw [h] at hne
        exact hne rfl
      have hempty : techs.isEmpty = false := by simpa using hne2
      have hx : t ∈ sortDescBy (fun t => t.importance) techs :=
        (mem_sortDescBy _ t techs).mpr htf.1
      have hfil : (sortDescBy (fun t => t.importance) techs).filter
          (fun t => t.category == "language") ≠ [] := by
        intro hnil
        exact absurd htf.2 (by simpa using List.filter_eq_nil_iff.mp hnil t hx)
      obtain ⟨t2, rest2, hs2⟩ : ∃ t2 rest2,
          (sortDescBy (fun t => t.importance) techs).filter
            (fun t => t.category == "language") = t2 :: rest2 := by
        cases hfe : (sortDescBy (fun t => t.importance) techs).filter
            (fun t => t.category == "language") with
        | nil => exact absurd hfe hfil
        | cons a l => exact ⟨a, l, rfl⟩
      have ht2 := List.mem_filter.mp (hs2 ▸ List.mem_cons_self t2 rest2)
      refine ⟨t2, (mem_sortDescBy _ t2 techs).mp ht2.1, by simpa using ht2.2, ?_, ?_⟩
      · unfold mainLanguage
        rw [hempty]
        simp only [Bool.false_eq_true, if_false]
        rw [hs2]
      · intro u hu hucat
        exact sorted_filter_head_max (fun t => t.importance) _
          (sortDescBy (fun t => t.importance) techs)
          (pairwise_sortDescBy _ techs) t2 rest2 hs2 u
          ((mem_sortDescBy _ u techs).mpr hu) (by simpa using hucat)
  · intro hne hfil
    have hempty : techs.isEmpty = false := by simpa using hne
    obtain ⟨t, rest, hs⟩ : ∃ t rest,
        sortDescBy (fun t => t.importance) techs = t :: rest := by
      cases hs : sortDescBy (fun t => t.importance) techs with
      | nil =>
        have hlen := length_sortDescBy (fun t => t.importance) techs
        rw [hs] at hlen
        exact absurd (List.length_eq_zero.mp hlen.symm) hne
      | cons t rest => exact ⟨t, rest, rfl⟩
    have hmax := sortDescBy_head_max (fun t => t.importance) techs t rest hs
    have hfilsorted : (sortDescBy (fun t => t.importance) techs).filter
        (fun t => t.category == "language") = [] := by
      rw [List.filter_eq_nil_iff]
      intro x hx
      exact List.filter_eq_nil_iff.mp hfil x ((mem_sortDescBy _ x techs).mp hx)
    refine ⟨t, hmax.1, ?_, fun u hu => hmax.2 u hu⟩
    unfold mainLanguage
    rw [hempty]
    simp only [Bool.false_eq_true, if_false]
    rw [hfilsorted, hs]

/-- C10 witness: the no-language branch of the amended theorem applied to the
concrete one-framework technology list. -/
theorem primary_language_resolution_witness :
    ∃ t, t ∈ [(⟨"Flask", "framework", none, 5⟩ : Technology)] ∧
      mainLanguage [(⟨"Flask", "framework", none, 5⟩ : Technology)] = some t.name ∧
      ∀ u ∈ [(⟨"Flask", "framework", none, 5⟩ : Technology)],
        u.importance ≤ t.importance :=
  (primary_language_resolution [⟨"Flask", "framework", none, 5⟩]).2.2.2
    (by decide) (by decide)

/-! ### Theorems for the generic-feature and end-to-end claims -/

/-- C8 counterexample: a project named "app" whose counters all stay at zero
triggers neither threshold qualification nor a name-derived rule, and — the
name being a single word — the code synthesizes no generic feature at all,
returning an empty feature list instead of exactly one feature. -/
theorem generic_feature_single_word_counterexample :
    detectFeaturesFromCounters zeroCounters = [] ∧
    (containsSubStr "download" "app" || containsSubStr "downloader" "app") = false ∧
    containsSubStr "youtube" "app" = false ∧
    (projectNameWords "app").length = 1 ∧
    detectProjectFeatures zeroCounters "app" = [] := by
  decide

/-- C8 (amended): when no feature category qualifies and neither name-derived
special rule fires, the inferencer synthesizes exactly one generic feature
from the project directory name — but only when the name splits into more
than one word; a single-word name yields an empty feature list. -/
theorem generic_feature_synthesis :
    ∀ (fc : FeatureCounters) (projectNameLower : String),
      detectFeaturesFromCounters fc = [] →
      (containsSubStr "download" projectNameLower ||
        containsSubStr "downloader" projectNameLower) = false →
      containsSubStr "youtube" projectNameLower = false →
      detectProjectFeatures fc projectNameLower =
        if (projectNameWords projectNameLower).length > 1 then
          [genericFeature (projectNameWords projectNameLower)]
        else [] := by
  intro fc projectNameLower hfc hdl hyt
  unfold detectProjectFeatures applyNameRules
  rw [hfc]
  simp [hdl, hyt]

/-- C8 witness: the amended synthesis rule applied to the concrete
two-word project name "todo-list" with all counters at zero. -/
theorem generic_feature_synthesis_witness :
    detectProjectFeatures zeroCounters "todo-list" =
      if (projectNameWords "todo-list").length > 1 then
        [genericFeature (projectNameWords "todo-list")]
      else [] :=
  generic_feature_synthesis zeroCounters "todo-list" (by decide) (by decide) (by decide)

/-- C7 counterexample: on the demo project (package.json with the single
dependency express, plus a routes directory) the detectors do register
Express.js at importance 5 and the Routing fact, but the architecture
description is the generic fallback and never mentions the Express.js
middleware architecture: the hint compares technology names for equality with
"express", while the registered name lower-cases to "express.js". -/
theorem demo_project_counterexample :
    (⟨"Express.js", "backend", none, 5⟩ : Technology) ∈ demoTechnologies ∧
    (⟨"Routing", "backend", none, 3⟩ : Technology) ∈ demoTechnologies ∧
    (demoTechnologies.map (fun t => pyLower t.name)).contains "express" = false ∧
    containsSubStr "Middleware" demoArchitectureDescription = false ∧
    containsSubStr "middleware" demoArchitectureDescription = false ∧
    containsSubStr "Express" demoArchitectureDescription = false := by
  decide

/-- C7 (amended): the demo project yields the Technology (backend,
Express.js, importance 5) and the "Routing" directory fact, and its
architecture description is the fallback sentence "Standard application
architecture." — the middleware phrase would require a technology whose name
lower-cases to exactly "express", which none of the involved detectors
produces. -/
theorem demo_project_end_to_end :
    (⟨"Express.js", "backend", none, 5⟩ : Technology) ∈ demoTechnologies ∧
    (⟨"Routing", "backend", none, 3⟩ : Technology) ∈ demoTechnologies ∧
    demoArchitectureDescription = "Standard application architecture." := by
  decide

end ReadmeForge
